import Mathlib

set_option maxHeartbeats 1000000

/-! Shallow embedding of the cct module runtime (cct/module.py): environment
    resolution, variable substitution, operation dispatch and the runner
    pipeline, module discovery with dependency installation, artifact
    fetching, and shell-script introspection, together with theorems checking
    the specification's claims against it.

    Python string primitives are modelled over `List Char` so that every
    definition evaluates by kernel reduction on concrete inputs. -/

/-! ### Python string primitives -/

/-- The whitespace characters of Python `str.strip()` / `str.split()`. -/
def pyIsSpace (c : Char) : Bool :=
  c == ' ' || c == '\t' || c == '\n' || c == '\r' || c == '\x0b' || c == '\x0c'

/-- Split a character list at every character satisfying `p`, keeping empty
    pieces (the shape of Python `s.split(sep)` for a one-character `sep`). -/
def splitWhen (p : Char → Bool) : List Char → List (List Char)
  | [] => [[]]
  | c :: rest =>
    if p c then [] :: splitWhen p rest
    else
      match splitWhen p rest with
      | [] => [[c]]
      | piece :: pieces => (c :: piece) :: pieces

/-- Python `s.split(sep)` for a one-character separator: split at every
    occurrence, keeping empty pieces. -/
def pySplitChar (s : String) (sep : Char) : List String :=
  (splitWhen (fun c => c == sep) s.data).map String.mk

/-- Python `s.split(sep, 1)` for a one-character separator, as the pair of
    the text before the first occurrence and everything after it (the whole
    string paired with `""` when the separator is absent). -/
def breakAtChar (sep : Char) : List Char → List Char × List Char
  | [] => ([], [])
  | c :: rest =>
    if c == sep then ([], rest)
    else
      let p := breakAtChar sep rest
      (c :: p.1, p.2)

/-- String wrapper for `breakAtChar`. -/
def pySplitOnce (s : String) (sep : Char) : String × String :=
  let p := breakAtChar sep s.data
  (String.mk p.1, String.mk p.2)

/-- Substring containment over characters (Python `sub in s`). -/
def containsSubList (sub : List Char) : List Char → Bool
  | [] => sub.isEmpty
  | c :: rest => sub.isPrefixOf (c :: rest) || containsSubList sub rest

/-- Python `sub in s` on strings. -/
def containsStr (s sub : String) : Bool :=
  containsSubList sub.data s.data

/-- Python `s.startswith(pre)`. -/
def pyStartsWith (s pre : String) : Bool :=
  pre.data.isPrefixOf s.data

/-- Python `s.endswith(suf)`. -/
def pyEndsWith (s suf : String) : Bool :=
  suf.data.isSuffixOf s.data

/-- Python `s[n:]`. -/
def pyDrop (s : String) (n : Nat) : String :=
  String.mk (s.data.drop n)

/-- Python `s[:-n]` (empty when `n` is at least the length). -/
def pyDropRight (s : String) (n : Nat) : String :=
  String.mk (s.data.take (s.data.length - n))

/-- Python `c in s` for a single character. -/
def pyContainsChar (s : String) (c : Char) : Bool :=
  s.data.contains c

/-- Python `s.strip()`: remove leading and trailing whitespace. -/
def pyStrip (s : String) : String :=
  String.mk (((s.data.dropWhile pyIsSpace).reverse.dropWhile pyIsSpace).reverse)

/-- Python `s.split()` with no argument: split on whitespace and drop the
    empty pieces. -/
def pySplit (s : String) : List String :=
  ((splitWhen pyIsSpace s.data).map String.mk).filter (fun t => t != "")

/-! ### Python dictionary primitives -/

/-- Association-list lookup, modelling Python `d.get(k)` / `d[k]` on an
    insertion-ordered string-keyed mapping (the embedding keeps at most one
    binding per key, so the first match is the binding). -/
def lookupDict {α : Type} (d : List (String × α)) (k : String) : Option α :=
  (d.find? (fun p => p.1 == k)).map (fun p => p.2)

/-- Python truthiness of `d.get(k)` for a string-valued mapping: the value
    counts as set for an `if` test only when it is present and non-empty. -/
def truthyGet (env : List (String × String)) (k : String) : Option String :=
  match lookupDict env k with
  | some v => if v == "" then none else some v
  | none => none

/-- Python `d[k] = v` on an insertion-ordered dict: overwrite in place when
    the key exists, else append a new binding. -/
def dictInsert {α : Type} (d : List (String × α)) (k : String) (v : α) :
    List (String × α) :=
  if d.any (fun p => p.1 == k) then
    d.map (fun p => if p.1 == k then (k, v) else p)
  else
    d ++ [(k, v)]

/-! ### Environment resolution and variable substitution (Module) -/

/-- Embedding of `Module.getenv` (module.py 178-183): the host environment
    value wins when truthy (an empty host value falls through), else module
    environment membership (an empty module value is returned), else the
    caller's default. -/
def getenv (host menv : List (String × String)) (name : String)
    (dflt : Option String) : Option String :=
  match truthyGet host name with
  | some v => some v
  | none =>
    match lookupDict menv name with
    | some v => some v
    | none => dflt

/-- Per-token body of `Module._replace_variables` (module.py 204-213): a token
    starting with `$` is replaced by the truthy host-environment value of the
    remainder, else the truthy module-environment value, else kept as is. -/
def substToken (host menv : List (String × String)) (token : String) : String :=
  if pyStartsWith token "$" then
    let var_name := pyDrop token 1
    match truthyGet host var_name with
    | some v => v
    | none =>
      match truthyGet menv var_name with
      | some v => v
      | none => token
  else token

/-- Embedding of `Module._replace_variables` (module.py 201-215): split the
    string on single spaces, substitute each token, and append each processed
    token plus a single space to the accumulating result. -/
def replace_variables (host menv : List (String × String)) (s : String) : String :=
  (pySplitChar s ' ').foldl
    (fun result token => result ++ substToken host menv token ++ " ") ""

/-! ### Operations, dispatch and the runner pipeline -/

/-- Embedding of `Operation` (module.py 318-331): a command name, its argument
    tokens, and its lifecycle state string. -/
structure Operation where
  command : String
  args : List String
  state : String
deriving DecidableEq, Repr

/-- The reserved command names the runner skips (module.py 141). -/
def reservedNames : List String := ["setup", "run", "url", "version", "teardown"]

/-- A capability reachable by `getattr(self, command)` in `Module.run`: its
    declared parameter names (`inspect.getargspec(method).args`) and its
    behaviour, `true` when the invocation returns normally and `false` when it
    raises. -/
structure Capability where
  params : List String
  behavior : List String → List (String × String) → Bool

/-- One iteration of the argument-binding loop of `Module.run`
    (module.py 249-257): a token containing `=` whose key is a declared
    parameter name is bound as a keyword argument; any other token is appended,
    `strip`ped, to the positional arguments. -/
def bindStep (params : List String)
    (acc : List String × List (String × String)) (arg : String) :
    List String × List (String × String) :=
  if pyContainsChar arg '=' then
    let kv := pySplitOnce arg '='
    if params.contains kv.1 then (acc.1, dictInsert acc.2 kv.1 kv.2)
    else (acc.1 ++ [pyStrip arg], acc.2)
  else (acc.1 ++ [pyStrip arg], acc.2)

/-- The argument binding performed by `Module.run` over all argument tokens:
    the positional list and the keyword mapping. -/
def bindArgs (params : List String) (args : List String) :
    List String × List (String × String) :=
  args.foldl (bindStep params) ([], [])

/-- Embedding of `Module.run` (module.py 242-265): resolve the capability by
    command name (a `getattr` miss raises), bind the arguments, and invoke.
    Returns the operation with its new state, and `true` iff the dispatch
    succeeded; on failure the module state is set to Error and the exception
    re-raised, which the runner embedding below accounts for. -/
def module_run (caps : String → Option Capability) (op : Operation) :
    Operation × Bool :=
  match caps op.command with
  | none => ({ op with state := "Error" }, false)
  | some cap =>
    let bound := bindArgs cap.params op.args
    if cap.behavior bound.1 bound.2 then
      ({ op with state := "Passed" }, true)
    else
      ({ op with state := "Error" }, false)

/-- Embedding of `Module._process_environment` (module.py 235-240): substitute
    variables in the command and in each argument whenever they contain `$`. -/
def process_environment (host menv : List (String × String)) (op : Operation) :
    Operation :=
  { op with
    command :=
      if pyContainsChar op.command '$' then replace_variables host menv op.command
      else op.command
    args := op.args.map (fun a =>
      if pyContainsChar a '$' then replace_variables host menv a else a) }

/-- The observable outcome of a `ModuleRunner.run` call: the final operation
    objects, the runner's state, the module instance's state, the trace of
    commands actually dispatched through `Module.run`, whether `teardown()`
    was invoked, and whether an exception propagated to the caller. -/
structure Outcome where
  ops : List Operation
  runnerState : String
  moduleState : String
  attempted : List String
  teardown : Bool
  raised : Bool
deriving DecidableEq, Repr

/-- The operation loop of `ModuleRunner.run` (module.py 140-154): skip
    reserved commands, substitute the environment, dispatch via `Module.run`,
    record Passed after each success, and on failure set the runner and module
    states to Error and re-raise, leaving the remaining operations untouched;
    after the last operation invoke `teardown()` and set the runner state to
    Passed.  `teardownOk` models whether `teardown()` returns normally. -/
def runner_loop (caps : String → Option Capability)
    (host menv : List (String × String)) (teardownOk : Bool)
    (runnerState moduleState : String) : List Operation → Outcome
  | [] =>
    if teardownOk then
      { ops := [], runnerState := "Passed", moduleState := moduleState,
        attempted := [], teardown := true, raised := false }
    else
      { ops := [], runnerState := runnerState, moduleState := moduleState,
        attempted := [], teardown := true, raised := true }
  | op :: rest =>
    if reservedNames.contains op.command then
      let o := runner_loop caps host menv teardownOk runnerState moduleState rest
      { o with ops := op :: o.ops }
    else
      let p := process_environment host menv op
      let r := module_run caps p
      if r.2 then
        let o := runner_loop caps host menv teardownOk "Passed" moduleState rest
        { o with ops := r.1 :: o.ops, attempted := p.command :: o.attempted }
      else
        { ops := r.1 :: rest, runnerState := "Error", moduleState := "Error",
          attempted := [p.command], teardown := false, raised := true }

/-- Embedding of `ModuleRunner.run` (module.py 138-154): `setup()` first (a
    failure propagates before any operation runs and teardown is never
    reached), then the operation loop.  `setupOk` models whether `setup()`
    returns normally. -/
def runner_run (caps : String → Option Capability)
    (host menv : List (String × String)) (setupOk teardownOk : Bool)
    (moduleState : String) (ops : List Operation) : Outcome :=
  if setupOk then
    runner_loop caps host menv teardownOk "Processing" moduleState ops
  else
    { ops := ops, runnerState := "Processing", moduleState := moduleState,
      attempted := [], teardown := false, raised := true }

/-! ### Module discovery and dependency installation (ModuleManager) -/

/-- YAML values as loaded from a module.yaml manifest: strings, sequences and
    mappings. -/
inductive Yaml where
  | str : String → Yaml
  | seq : List Yaml → Yaml
  | dict : List (String × Yaml) → Yaml

/-- Python `==` between a `str` and an arbitrary loaded value: true only for
    an equal string (a `str` never equals a `dict` or a `list`). -/
def Yaml.eqStr : Yaml → String → Bool
  | .str s, t => s == t
  | _, _ => false

/-- Python `x in l` for a string `x` and a list `l` of YAML values. -/
def pyIn (x : String) (l : List Yaml) : Bool :=
  l.any (fun y => y.eqStr x)

/-- Python `d[k]` on a YAML mapping; `none` models the lookup raising
    (KeyError on a mapping without the key, TypeError on a non-mapping). -/
def Yaml.get : Yaml → String → Option Yaml
  | .dict es, k => (es.find? (fun p => p.1 == k)).map (fun p => p.2)
  | _, _ => none

/-- The `(url, version)` argument pairs `ModuleManager.process_module_deps`
    (module.py 65-68) passes to `install_module`, one call per entry of the
    manifest's `deps` list.  Note that the source computes the version as
    `dep['version'] if 'version' in deps else None`, testing membership of the
    string in the *list* `deps` rather than in the entry `dep`. -/
def dep_install_args (deps : List Yaml) : List (Option Yaml × Option Yaml) :=
  deps.map (fun dep =>
    (dep.get "url", if pyIn "version" deps then dep.get "version" else none))

/-- `os.path.basename`: the part of a path after the last slash. -/
def basename (p : String) : String :=
  (pySplitChar p '/').getLastD p

/-- The destination directory `ModuleManager.install_module` (module.py 57-60)
    derives from the URL: `<manager directory>/<basename(url)>`, with the last
    four characters removed when the result ends in `git`. -/
def install_repo_dir (directory url : String) : String :=
  let repo_dir := directory ++ "/" ++ basename url
  if pyEndsWith repo_dir "git" then pyDropRight repo_dir 4 else repo_dir

/-- The `clone_repo(url, repo_dir, version)` call `install_module`
    (module.py 62) makes; `clone_repo` itself lives in cct/lib/git.py, outside
    this file's source. -/
structure CloneCall where
  url : String
  dest : String
  version : Option Yaml

/-- `ModuleManager.install_module` forwards the URL and version it received
    to `clone_repo` unchanged, with the derived destination directory. -/
def install_module_clone (directory url : String) (version : Option Yaml) :
    CloneCall :=
  { url := url, dest := install_repo_dir directory url, version := version }

/-- `ModuleManager.process_module_deps` run against an installer oracle
    standing for `install_module` (whose `clone_repo` call and recursive
    re-discovery perform I/O): the first error raised by an installation
    propagates out of the loop. -/
def process_module_deps_run
    (install : Option Yaml → Option Yaml → Except String Unit)
    (deps : List Yaml) : Except String Unit :=
  (dep_install_args deps).foldlM (fun _ call => install call.1 call.2) ()

/-- The inputs determining one candidate directory's processing inside
    `ModuleManager.discover_modules`: the outcome of opening and parsing its
    module.yaml, and the outcome of `find_modules` (the module names its
    file loading registers, or the error it raises), both I/O. -/
structure DirInput where
  parseResult : Except String (List (String × Yaml))
  findResult : Except String (List String)

/-- The body of the per-directory `try` block of `discover_modules`
    (module.py 49-53): parse the manifest, process its `deps` when declared,
    then run `find_modules` with the manifest's `language` (a missing
    `language` key raises). -/
def process_dir (install : Option Yaml → Option Yaml → Except String Unit)
    (d : DirInput) : Except String (List String) := do
  let config ← d.parseResult
  (match (Yaml.dict config).get "deps" with
   | some (Yaml.seq deps) => process_module_deps_run install deps
   | some _ => throw "TypeError: deps entry is not a sequence of mappings"
   | none => pure ())
  match (Yaml.dict config).get "language" with
  | some _ => d.findResult
  | none => throw "KeyError: language"

/-- Embedding of `ModuleManager.discover_modules` (module.py 40-55): every
    exception raised while processing a candidate directory — manifest parse,
    dependency installation, module loading — is caught and logged, and the
    walk continues with the next directory.  Returns the registered module
    names and the log of swallowed errors, in walk order. -/
def discover_modules
    (install : Option Yaml → Option Yaml → Except String Unit) :
    List DirInput → List String × List String
  | [] => ([], [])
  | d :: rest =>
    match process_dir install d with
    | Except.ok mods =>
      let o := discover_modules install rest
      (mods ++ o.1, o.2)
    | Except.error e =>
      let o := discover_modules install rest
      (o.1, ("Cannot process module.yaml " ++ e) :: o.2)

/-! ### Artifact fetching (CctArtifact, Module._get_artifacts) -/

/-- Embedding of `CctArtifact` (module.py 268-279).  The constructor sets
    `filename := name` and `path := none`; its `${VAR}` substitution touches
    the URL only when the URL contains `$`, so the artifacts handled below
    carry their final URL. -/
structure CctArtifact where
  name : String
  chksum : String
  url : String
  filename : String
  path : Option String
deriving DecidableEq, Repr

/-- Embedding of `CctArtifact.check_sum` (module.py 298-307) over a filesystem
    modelled as a path-to-contents mapping and a digest oracle taking the
    algorithm name (the chksum text before the first `:`) and the contents:
    false when the file does not exist, else case-sensitive equality of the
    declared hex digest (the chksum text after the first `:`) with the
    computed one. -/
def check_sum (digest : String → String → String)
    (fs : List (String × String)) (path chksum : String) : Bool :=
  match lookupDict fs path with
  | none => false
  | some content =>
    (pySplitOnce chksum ':').2 == digest (pySplitOnce chksum ':').1 content

/-- The observable outcome of a `CctArtifact.fetch` call: the artifact with
    its path set, the filesystem afterwards, how many download attempts were
    made, and the raised error message, if any. -/
structure FetchOutcome where
  artifact : CctArtifact
  fs : List (String × String)
  downloads : Nat
  error : Option String
deriving DecidableEq, Repr

/-- Embedding of `CctArtifact.fetch` (module.py 281-296): set the path to
    `<directory>/<filename>`, return at once on a cache hit, otherwise
    download exactly once (`net` is the contents retrieved from the artifact's
    URL, `none` when retrieval fails) and re-check the digest, raising when it
    still mismatches. -/
def fetch (digest : String → String → String) (net : Option String)
    (fs : List (String × String)) (a : CctArtifact) (directory : String) :
    FetchOutcome :=
  let path := directory ++ "/" ++ a.filename
  let a2 : CctArtifact := { a with path := some path }
  if check_sum digest fs path a2.chksum then
    { artifact := a2, fs := fs, downloads := 0, error := none }
  else
    match net with
    | none =>
      { artifact := a2, fs := fs, downloads := 1,
        error := some ("Cannot download artifact from url " ++ a2.url) }
    | some content =>
      let fs2 := dictInsert fs path content
      if check_sum digest fs2 path a2.chksum then
        { artifact := a2, fs := fs2, downloads := 1, error := none }
      else
        { artifact := a2, fs := fs2, downloads := 1,
          error := some ("Artifact from " ++ a2.url ++
            " does not match required chksum " ++ a2.chksum) }

/-- Embedding of `Module._get_artifacts` (module.py 217-221): fetch each
    declared artifact in order, adding it to the module's artifact mapping
    only after its `fetch` returned without raising; a raised error aborts
    the loop and propagates.  Returns the mapping, the filesystem, and the
    propagated error, if any. -/
def get_artifacts (digest : String → String → String)
    (net : String → Option String) (destination : String) :
    List CctArtifact → List (String × String) → List (String × CctArtifact) →
    List (String × CctArtifact) × List (String × String) × Option String
  | [], fs, acc => (acc, fs, none)
  | a :: rest, fs, acc =>
    let r := fetch digest (net a.url) fs a destination
    match r.error with
    | some e => (acc, r.fs, some e)
    | none =>
      get_artifacts digest net destination rest r.fs
        (dictInsert acc a.name r.artifact)

/-! ### Shell script introspection (ShellModule._discover) -/

/-- The first match of the regular expression `\$\d+` in a line, as returned
    by `re.search(...).group(0)`. -/
def paramSearchAux : List Char → Option String
  | [] => none
  | c :: rest =>
    if c = '$' then
      let ds := rest.takeWhile Char.isDigit
      if ds.isEmpty then paramSearchAux rest
      else some (String.mk ('$' :: ds))
    else paramSearchAux rest

/-- Search a whole line for a `\$\d+` positional-parameter reference. -/
def paramSearch (line : String) : Option String :=
  paramSearchAux line.data

/-- A discovered shell function (the per-function dict built by
    `ShellModule._discover`, module.py 360-362): its name, its accumulated
    documentation comment, and its parameter-name-to-reference mapping. -/
structure FunctionDescriptor where
  name : String
  comment : String
  params : List (String × String)
deriving DecidableEq, Repr

/-- The introspection state of `ShellModule._discover`: the discovered
    function table, the pending comment buffer, and the name of the current
    function. -/
structure DiscoverState where
  names : List (String × FunctionDescriptor)
  comment : String
  current : String
deriving DecidableEq, Repr

/-- One line of `ShellModule._discover` (module.py 355-370), each line as
    Python yields it (trailing newline included): a `#` line appends its
    remainder to the pending comment; a line containing `function` registers a
    descriptor named by its second whitespace token minus two trailing
    characters, carrying the pending comment; a line with a `\$\d+` reference
    records a parameter on the current function; any other line clears the
    pending comment.  `none` models a raised IndexError/KeyError on malformed
    input. -/
def discoverStep (st : DiscoverState) (line : String) : Option DiscoverState :=
  if pyStartsWith line "#" then
    some { st with comment := st.comment ++ pyDrop line 1 }
  else if containsStr line "function" then
    match (pySplit line).drop 1 with
    | [] => none
    | tok :: _ =>
      let name := pyDropRight tok 2
      some { names := dictInsert st.names name
               { name := name, comment := st.comment, params := [] },
             comment := st.comment, current := name }
  else
    match paramSearch line with
    | some tok =>
      match (pySplit ((pySplitChar line '=').headD line)).getLast? with
      | none => none
      | some param_name =>
        match lookupDict st.names st.current with
        | none => none
        | some fd =>
          let fd2 : FunctionDescriptor :=
            { fd with params := dictInsert fd.params param_name tok }
          some { st with names := dictInsert st.names st.current fd2 }
    | none => some { st with comment := "" }

/-- Embedding of `ShellModule._discover` (module.py 349-370) over the
    script's lines. -/
def shell_discover (lines : List String) : Option DiscoverState :=
  lines.foldlM discoverStep { names := [], comment := "", current := "" }

/-! ### Helper lemmas -/

/-- The concatenation shape `_replace_variables` produces: every token emitted
    followed by a single space. -/
def joinTokens : List String → String
  | [] => ""
  | t :: ts => t ++ " " ++ joinTokens ts

theorem foldl_append_joinTokens (g : String → String) :
    ∀ (l : List String) (acc : String),
      l.foldl (fun r token => r ++ g token ++ " ") acc =
        acc ++ joinTokens (l.map g)
  | [], acc => by simp [joinTokens, String.append_empty]
  | t :: ts, acc => by
    simp only [List.foldl_cons, List.map_cons, joinTokens]
    rw [foldl_append_joinTokens g ts (acc ++ g t ++ " ")]
    simp [String.append_assoc]

/-- `_replace_variables` is exactly per-token substitution with every
    processed token followed by one space. -/
theorem replace_variables_eq_joinTokens (host menv : List (String × String))
    (s : String) :
    replace_variables host menv s =
      joinTokens ((pySplitChar s ' ').map (substToken host menv)) := by
  unfold replace_variables
  rw [foldl_append_joinTokens, String.empty_append]

/-! ### Claim C2: variable substitution resolution and output shape -/

/-- Claim C2 is false as stated: substituting the single token `$FOO` with
    neither environment set yields the string with a trailing space, not the
    literal `$FOO`; moreover a host variable that is set but empty is skipped
    in favour of the module value, against the claimed resolution order. -/
theorem c2_substitution_counterexample :
    replace_variables [] [] "$FOO" ≠ "$FOO" ∧
    replace_variables [] [] "$FOO" = "$FOO " ∧
    replace_variables [("FOO", "")] [("FOO", "baz")] "$FOO" = "baz " := by
  refine ⟨?_, ?_, ?_⟩ <;> decide

/-- Claim C2 (amended): substitution processes each space-delimited token
    independently and emits every processed token followed by a single space;
    a token starting with `$` resolves to the host value when set and
    non-empty, else the module value when set and non-empty, else is left
    completely unmodified; with host FOO=bar and module FOO=baz the input
    `$FOO` yields exactly `bar` followed by a space, and with neither set it
    yields exactly `$FOO` followed by a space. -/
theorem c2_substitution_amended (host menv : List (String × String))
    (s t v : String) :
    replace_variables [("FOO", "bar")] [("FOO", "baz")] "$FOO" = "bar " ∧
    replace_variables [] [] "$FOO" = "$FOO " ∧
    replace_variables host menv s =
      joinTokens ((pySplitChar s ' ').map (substToken host menv)) ∧
    (pyStartsWith t "$" = false → substToken host menv t = t) ∧
    (pyStartsWith t "$" = true → truthyGet host (pyDrop t 1) = some v →
      substToken host menv t = v) ∧
    (pyStartsWith t "$" = true → truthyGet host (pyDrop t 1) = none →
      truthyGet menv (pyDrop t 1) = some v → substToken host menv t = v) ∧
    (pyStartsWith t "$" = true → truthyGet host (pyDrop t 1) = none →
      truthyGet menv (pyDrop t 1) = none → substToken host menv t = t) := by
  refine ⟨by decide, by decide,
    replace_variables_eq_joinTokens host menv s, ?_, ?_, ?_, ?_⟩
  · intro h; simp [substToken, h]
  · intro h h1; simp [substToken, h, h1]
  · intro h h1 h2; simp [substToken, h, h1, h2]
  · intro h h1 h2; simp [substToken, h, h1, h2]

/-- Witness for C2 (amended) at concrete environments and tokens. -/
theorem c2_substitution_amended_witness :
    substToken [] [("FOO", "x")] "bar" = "bar" ∧
    substToken [("FOO", "bar")] [("FOO", "baz")] "$FOO" = "bar" ∧
    substToken [] [("FOO", "baz")] "$FOO" = "baz" ∧
    substToken [] [] "$FOO" = "$FOO" :=
  ⟨(c2_substitution_amended [] [("FOO", "x")] "" "bar" "").2.2.2.1 (by decide),
   (c2_substitution_amended [("FOO", "bar")] [("FOO", "baz")] "" "$FOO"
      "bar").2.2.2.2.1 (by decide) (by decide),
   (c2_substitution_amended [] [("FOO", "baz")] "" "$FOO" "baz").2.2.2.2.2.1
      (by decide) (by decide) (by decide),
   (c2_substitution_amended [] [] "" "$FOO" "$FOO").2.2.2.2.2.2
      (by decide) (by decide) (by decide)⟩

/-! ### Claim C4: dependency installation drops the declared version -/

/-- A concrete manifest dependency list: one dependency declaring both a url
    and a version. -/
def c4Deps : List Yaml :=
  [Yaml.dict [("url", Yaml.str "http://example.com/mod.git"),
              ("version", Yaml.str "v1.0")]]

/-- Claim C4: the installer is invoked once per declared dependency with that
    dependency's URL, but — against the claim — always with version None
    rather than the declared version: `'version' in deps` tests the string
    against the list of dependency mappings, where it never occurs, so the
    clone is never performed at the declared version even though the
    dependency does declare version v1.0 (and `install_module` forwards
    whatever version it receives to `clone_repo` unchanged). -/
theorem c4_version_never_passed :
    dep_install_args c4Deps =
      [(some (Yaml.str "http://example.com/mod.git"), none)] ∧
    pyIn "version" c4Deps = false ∧
    (Yaml.dict [("url", Yaml.str "http://example.com/mod.git"),
                ("version", Yaml.str "v1.0")]).get "version" =
      some (Yaml.str "v1.0") ∧
    (install_module_clone "/modules" "http://example.com/mod.git" none).version
      = none :=
  ⟨rfl, rfl, rfl, rfl⟩

/-! ### Claim C5: dependency-fetch failures during discovery are swallowed -/

/-- A module directory whose manifest declares a dependency (used with an
    installer that fails). -/
def c5DirFail : DirInput :=
  { parseResult := Except.ok
      [("language", Yaml.str "python"),
       ("deps", Yaml.seq
         [Yaml.dict [("url", Yaml.str "http://example.com/dep.git")]])],
    findResult := Except.ok ["d1.Mod"] }

/-- A later module directory with no dependencies. -/
def c5DirOk : DirInput :=
  { parseResult := Except.ok [("language", Yaml.str "bash")],
    findResult := Except.ok ["d2.mod"] }

/-- An installer oracle whose clone always fails. -/
def c5Install : Option Yaml → Option Yaml → Except String Unit :=
  fun _ _ => Except.error "clone failed"

/-- Claim C5 is false as stated: a dependency-fetch failure raised while
    processing a manifest's deps does abort that directory's processing, but
    the enclosing discovery call catches it, logs it, and continues — the
    later directory's module is still registered and no error reaches the
    caller of discover. -/
theorem c5_fetch_failure_counterexample :
    process_dir c5Install c5DirFail = Except.error "clone failed" ∧
    discover_modules c5Install [c5DirFail, c5DirOk] =
      (["d2.mod"], ["Cannot process module.yaml clone failed"]) :=
  ⟨rfl, rfl⟩

/-- Claim C5 (amended): a dependency-fetch failure raised while processing a
    manifest's deps during discovery is caught by the same per-directory
    handler as manifest-parse failures: it is logged, the directory is
    skipped, and discovery continues with the remaining directories rather
    than propagating the failure to discover's caller. -/
theorem c5_fetch_failure_swallowed
    (install : Option Yaml → Option Yaml → Except String Unit)
    (d : DirInput) (rest : List DirInput) (e : String)
    (h : process_dir install d = Except.error e) :
    discover_modules install (d :: rest) =
      ((discover_modules install rest).1,
       ("Cannot process module.yaml " ++ e) ::
         (discover_modules install rest).2) := by
  simp [discover_modules, h]

/-- Witness for C5 (amended) at the concrete failing installer. -/
theorem c5_fetch_failure_swallowed_witness :
    discover_modules c5Install [c5DirFail, c5DirOk] =
      ((discover_modules c5Install [c5DirOk]).1,
       ("Cannot process module.yaml clone failed") ::
         (discover_modules c5Install [c5DirOk]).2) :=
  c5_fetch_failure_swallowed c5Install c5DirFail [c5DirOk] "clone failed" rfl

/-! ### Claim C6: a mismatching artifact is never registered -/

/-- Overwriting a present key in the map branch of `dictInsert` makes the
    first matching entry `(k, v)`. -/
theorem find?_map_overwrite {α : Type} (k : String) (v : α) :
    ∀ (d : List (String × α)), d.any (fun p => p.1 == k) = true →
      (d.map (fun p => if p.1 == k then (k, v) else p)).find?
        (fun p => p.1 == k) = some (k, v) := by
  intro d
  induction d with
  | nil => intro h; simp at h
  | cons p d ih =>
    intro h
    by_cases hp : p.1 = k
    · have hbeq : (p.1 == k) = true := by simp [hp]
      simp only [List.map_cons, hbeq, if_true]
      rw [List.find?_cons_of_pos _ (by simp)]
    · have hbeq : (p.1 == k) = false := by simp [hp]
      have h2 : d.any (fun q => q.1 == k) = true := by
        simp only [List.any_cons, hbeq, Bool.false_or] at h
        exact h
      simp only [List.map_cons, hbeq, Bool.false_eq_true, if_false]
      rw [List.find?_cons_of_neg _ (by simp [hp])]
      exact ih h2

/-- Inserting a binding makes it the binding the lookup finds. -/
theorem lookupDict_dictInsert {α : Type} (d : List (String × α)) (k : String)
    (v : α) : lookupDict (dictInsert d k v) k = some v := by
  unfold dictInsert
  by_cases h : d.any (fun p => p.1 == k) = true
  · rw [if_pos h]
    unfold lookupDict
    rw [find?_map_overwrite k v d h]
    rfl
  · rw [if_neg h]
    unfold lookupDict
    rw [List.find?_append]
    have hn : d.find? (fun p => p.1 == k) = none := by
      rw [List.find?_eq_none]
      intro x hx
      intro hcon
      exact h (List.any_eq_true.mpr ⟨x, hx, hcon⟩)
    simp [hn]

/-- Claim C6: for an artifact with no existing file at its target path,
    `fetch` downloads exactly once, and when the digest computed after the
    download differs from the declared hex digest it raises the integrity
    error and `_get_artifacts` never adds the artifact to the module's
    artifact mapping, propagating the error instead. -/
theorem c6_mismatch_never_registered (digest : String → String → String)
    (content : String) (fs : List (String × String)) (a : CctArtifact)
    (destination : String)
    (hnofile : lookupDict fs (destination ++ "/" ++ a.filename) = none) :
    (fetch digest (some content) fs a destination).downloads = 1 ∧
    (((pySplitOnce a.chksum ':').2 ==
        digest (pySplitOnce a.chksum ':').1 content) = false →
      (fetch digest (some content) fs a destination).error =
        some ("Artifact from " ++ a.url ++ " does not match required chksum "
          ++ a.chksum) ∧
      (get_artifacts digest (fun _ => some content) destination [a] fs []).1
        = [] ∧
      (get_artifacts digest (fun _ => some content) destination [a] fs []).2.2
        = some ("Artifact from " ++ a.url ++
            " does not match required chksum " ++ a.chksum)) := by
  have hcs1 : check_sum digest fs (destination ++ "/" ++ a.filename) a.chksum
      = false := by
    simp [check_sum, hnofile]
  constructor
  · simp only [fetch, hcs1, Bool.false_eq_true, if_false]
    split <;> rfl
  · intro hmm
    have hcs2 : check_sum digest
        (dictInsert fs (destination ++ "/" ++ a.filename) content)
        (destination ++ "/" ++ a.filename) a.chksum = false := by
      simp only [check_sum, lookupDict_dictInsert]
      exact hmm
    have hf : (fetch digest (some content) fs a destination).error =
        some ("Artifact from " ++ a.url ++ " does not match required chksum "
          ++ a.chksum) := by
      simp [fetch, hcs1, hcs2]
    refine ⟨hf, ?_, ?_⟩ <;> simp [get_artifacts, hf]

/-- Concrete digest oracle and artifact for the C6 witness: the computed
    digest of the downloaded payload differs from the declared one. -/
def c6Digest : String → String → String := fun alg content => alg ++ content

def c6Art : CctArtifact :=
  { name := "jar", chksum := "md5:deadbeef", url := "http://example.com/a.jar",
    filename := "jar", path := none }

/-- Witness for C6 at a concrete artifact whose downloaded digest mismatches. -/
theorem c6_mismatch_never_registered_witness :
    (fetch c6Digest (some "payload") [] c6Art "/dest").downloads = 1 ∧
    (fetch c6Digest (some "payload") [] c6Art "/dest").error =
      some ("Artifact from http://example.com/a.jar does not match required chksum md5:deadbeef") ∧
    (get_artifacts c6Digest (fun _ => some "payload") "/dest" [c6Art] [] []).1
      = [] := by
  have h := c6_mismatch_never_registered c6Digest "payload" [] c6Art "/dest"
    (by decide)
  have h2 := h.2 (by decide)
  exact ⟨h.1, h2.1.trans (by decide), h2.2.1⟩

/-! ### Claim C7: argument binding -/

/-- The step of the binding loop on a token bound as a named parameter. -/
theorem bindStep_named (params : List String) (pos : List String)
    (kw : List (String × String)) (a : String)
    (h1 : pyContainsChar a '=' = true)
    (h2 : params.contains (pySplitOnce a '=').1 = true) :
    bindStep params (pos, kw) a =
      (pos, dictInsert kw (pySplitOnce a '=').1 (pySplitOnce a '=').2) := by
  have hm2 : (pySplitOnce a '=').1 ∈ params := by simpa using h2
  simp [bindStep, h1, hm2]

/-- The step of the binding loop on a token passed positionally. -/
theorem bindStep_positional (params : List String) (pos : List String)
    (kw : List (String × String)) (a : String)
    (h : pyContainsChar a '=' = false ∨
      params.contains (pySplitOnce a '=').1 = false) :
    bindStep params (pos, kw) a = (pos ++ [pyStrip a], kw) := by
  rcases h with h | h
  · simp [bindStep, h]
  · have hm : (pySplitOnce a '=').1 ∉ params := by simpa using h
    by_cases h1 : pyContainsChar a '=' = true
    · simp [bindStep, h1, hm]
    · simp [bindStep, h1]

/-- The positional arguments the binding loop accumulates are exactly the
    tokens not bound as named parameters, each `strip`ped. -/
theorem bindFold_positional (params : List String) :
    ∀ (args : List String) (pos : List String) (kw : List (String × String)),
      (args.foldl (bindStep params) (pos, kw)).1 =
        pos ++ (args.filter (fun a =>
          !(pyContainsChar a '=' && params.contains (pySplitOnce a '=').1))).map
            pyStrip := by
  intro args
  induction args with
  | nil => intro pos kw; simp
  | cons a args ih =>
    intro pos kw
    simp only [List.foldl_cons]
    by_cases h1 : pyContainsChar a '=' = true
    · by_cases h2 : params.contains (pySplitOnce a '=').1 = true
      · rw [bindStep_named params pos kw a h1 h2, ih]
        have hpred : (!(pyContainsChar a '=' &&
            params.contains (pySplitOnce a '=').1)) = false := by
          rw [h1, h2]; rfl
        simp only [List.filter_cons, hpred, Bool.false_eq_true, if_false]
      · have h2f : params.contains (pySplitOnce a '=').1 = false :=
          Bool.eq_false_iff.mpr h2
        rw [bindStep_positional params pos kw a (Or.inr h2f), ih]
        have hpred : (!(pyContainsChar a '=' &&
            params.contains (pySplitOnce a '=').1)) = true := by
          rw [h1, h2f]; rfl
        simp only [List.filter_cons, hpred, if_true]
        simp
    · have h1f : pyContainsChar a '=' = false := Bool.eq_false_iff.mpr h1
      rw [bindStep_positional params pos kw a (Or.inl h1f), ih]
      have hpred : (!(pyContainsChar a '=' &&
          params.contains (pySplitOnce a '=').1)) = true := by
        rw [h1f]; rfl
      simp only [List.filter_cons, hpred, if_true]
      simp

/-- The binding just inserted is present in the keyword mapping. -/
theorem any_dictInsert_self {α : Type} (d : List (String × α)) (k : String)
    (v : α) : ((dictInsert d k v).any fun p => p.1 == k) = true := by
  unfold dictInsert
  by_cases h : d.any (fun p => p.1 == k) = true
  · rw [if_pos h]
    obtain ⟨x, hx, hxk⟩ := List.any_eq_true.mp h
    refine List.any_eq_true.mpr ⟨(k, v), List.mem_map.mpr ⟨x, hx, ?_⟩, by simp⟩
    simp [hxk]
  · rw [if_neg h]
    exact List.any_eq_true.mpr ⟨(k, v), by simp, by simp⟩

/-- `dictInsert` preserves the presence of every key. -/
theorem any_dictInsert_mono {α : Type} (d : List (String × α)) (k k2 : String)
    (v : α) (h : (d.any fun p => p.1 == k2) = true) :
    ((dictInsert d k v).any fun p => p.1 == k2) = true := by
  unfold dictInsert
  by_cases hany : d.any (fun p => p.1 == k) = true
  · rw [if_pos hany]
    obtain ⟨x, hx, hxk⟩ := List.any_eq_true.mp h
    by_cases hxk2 : x.1 = k
    · refine List.any_eq_true.mpr
        ⟨(k, v), List.mem_map.mpr ⟨x, hx, by simp [hxk2]⟩, ?_⟩
      have hk : k = k2 := by
        rw [← hxk2]
        exact by simpa using hxk
      simp [hk]
    · exact List.any_eq_true.mpr
        ⟨x, List.mem_map.mpr ⟨x, hx, by simp [hxk2]⟩, hxk⟩
  · rw [if_neg hany]
    obtain ⟨x, hx, hxk⟩ := List.any_eq_true.mp h
    exact List.any_eq_true.mpr ⟨x, List.mem_append_left _ hx, hxk⟩

/-- The binding loop never loses a keyword-mapping key. -/
theorem bindFold_kw_mono (params : List String) :
    ∀ (args : List String) (pos : List String) (kw : List (String × String))
      (k : String), (kw.any fun p => p.1 == k) = true →
      (((args.foldl (bindStep params) (pos, kw)).2).any
        fun p => p.1 == k) = true := by
  intro args
  induction args with
  | nil => intro pos kw k h; simpa using h
  | cons a args ih =>
    intro pos kw k h
    simp only [List.foldl_cons]
    by_cases h1 : pyContainsChar a '=' = true
    · by_cases h2 : params.contains (pySplitOnce a '=').1 = true
      · rw [bindStep_named params pos kw a h1 h2]
        exact ih _ _ k (any_dictInsert_mono _ _ _ _ h)
      · rw [bindStep_positional params pos kw a
          (Or.inr (Bool.eq_false_iff.mpr h2))]
        exact ih _ _ k h
    · rw [bindStep_positional params pos kw a
        (Or.inl (Bool.eq_false_iff.mpr h1))]
      exact ih _ _ k h

/-- Every token containing `=` whose key is declared ends up bound in the
    keyword mapping. -/
theorem bindFold_named (params : List String) :
    ∀ (args : List String) (pos : List String) (kw : List (String × String)),
      ∀ a ∈ args, pyContainsChar a '=' = true →
        params.contains (pySplitOnce a '=').1 = true →
        (((args.foldl (bindStep params) (pos, kw)).2).any
          fun p => p.1 == (pySplitOnce a '=').1) = true := by
  intro args
  induction args with
  | nil => intro pos kw a ha; simp at ha
  | cons b args ih =>
    intro pos kw a ha h1 h2
    simp only [List.foldl_cons]
    rcases List.mem_cons.mp ha with rfl | ha2
    · rw [bindStep_named params pos kw a h1 h2]
      exact bindFold_kw_mono params args _ _ _ (any_dictInsert_self _ _ _)
    · exact ih (bindStep params (pos, kw) b).1 (bindStep params (pos, kw) b).2
        a ha2 h1 h2

/-- Claim C7 is false in its "passed whole" part: a token containing `=`
    whose key matches no declared parameter is appended `strip`ped, not
    whole — for the single token built of a space followed by `a=1`, the
    sole positional argument is `a=1`, not the token itself. -/
theorem c7_whole_token_counterexample :
    bindArgs ["port"] [" a=1"] = (["a=1"], []) ∧
    (bindArgs ["port"] [" a=1"]).1 ≠ [" a=1"] :=
  ⟨by decide, by decide⟩

/-- Claim C7 (amended): for a capability declaring parameter `port`, the
    argument list `["port=8080", "extra"]` binds port to 8080 as the single
    named parameter with `extra` the sole positional argument; in general a
    token containing `=` whose key matches a declared parameter name is bound
    as a named parameter, and every other token — one containing `=` with an
    undeclared key, or one without `=` — is passed as a single positional
    argument with surrounding whitespace stripped (the whole token whenever
    it carries no surrounding whitespace). -/
theorem c7_argument_binding_amended (params : List String)
    (args : List String) :
    bindArgs ["port"] ["port=8080", "extra"] =
      (["extra"], [("port", "8080")]) ∧
    (bindArgs params args).1 =
      (args.filter (fun a =>
        !(pyContainsChar a '=' && params.contains (pySplitOnce a '=').1))).map
          pyStrip ∧
    (∀ a ∈ args, pyContainsChar a '=' = true →
      params.contains (pySplitOnce a '=').1 = true →
      ((bindArgs params args).2.any
        fun p => p.1 == (pySplitOnce a '=').1) = true) ∧
    (∀ a ∈ args, pyContainsChar a '=' = false →
      pyStrip a ∈ (bindArgs params args).1) := by
  refine ⟨by decide, ?_, ?_, ?_⟩
  · unfold bindArgs
    rw [bindFold_positional]
    simp
  · intro a ha h1 h2
    exact bindFold_named params args [] [] a ha h1 h2
  · intro a ha h1
    unfold bindArgs
    rw [bindFold_positional]
    refine List.mem_append_right _ (List.mem_map.mpr ⟨a, ?_, rfl⟩)
    refine List.mem_filter.mpr ⟨ha, ?_⟩
    simp [h1]

/-- Witness for C7 (amended) at the concrete example. -/
theorem c7_argument_binding_amended_witness :
    bindArgs ["port"] ["port=8080", "extra"] =
      (["extra"], [("port", "8080")]) ∧
    (bindArgs ["port"] ["port=8080", "extra"]).1 = ["extra"] ∧
    ((bindArgs ["port"] ["port=8080", "extra"]).2.any
      fun p => p.1 == (pySplitOnce "port=8080" '=').1) = true ∧
    pyStrip "extra" ∈ (bindArgs ["port"] ["port=8080", "extra"]).1 := by
  have h := c7_argument_binding_amended ["port"] ["port=8080", "extra"]
  exact ⟨h.1, h.2.1.trans (by decide),
    h.2.2.1 "port=8080" (by decide) (by decide) (by decide),
    h.2.2.2 "extra" (by decide) (by decide)⟩

/-! ### Claim C8: script introspection documentation -/

/-- The concatenation of comment lines with the leading sigil stripped. -/
def stripHash : List String → String
  | [] => ""
  | c :: cs => pyDrop c 1 ++ stripHash cs

/-- A run of comment lines only extends the pending comment buffer. -/
theorem foldlM_comment_lines :
    ∀ (cs : List String) (st : DiscoverState),
      (∀ c ∈ cs, pyStartsWith c "#" = true) →
      cs.foldlM discoverStep st =
        some { st with comment := st.comment ++ stripHash cs } := by
  intro cs
  induction cs with
  | nil =>
    intro st _
    cases st with
    | mk names comment current => simp [stripHash, String.append_empty]
  | cons c cs ih =>
    intro st h
    have hc : pyStartsWith c "#" = true := h c (List.mem_cons_self _ _)
    have hstep : discoverStep st c =
        some { st with comment := st.comment ++ pyDrop c 1 } := by
      simp [discoverStep, hc]
    rw [List.foldlM_cons, hstep]
    show cs.foldlM discoverStep _ = _
    rw [ih _ (fun q hq => h q (List.mem_cons_of_mem _ hq))]
    simp [stripHash, String.append_assoc]

/-- A well-formed function-definition line registers a descriptor named after
    its second token, documented by the pending comment. -/
theorem discoverStep_function (defLine t : String) (ts : List String)
    (hd1 : pyStartsWith defLine "#" = false)
    (hd2 : containsStr defLine "function" = true)
    (hd3 : (pySplit defLine).drop 1 = t :: ts) :
    ∀ st : DiscoverState, discoverStep st defLine =
      some { names := dictInsert st.names (pyDropRight t 2)
               { name := pyDropRight t 2, comment := st.comment, params := [] },
             comment := st.comment, current := pyDropRight t 2 } := by
  intro st
  simp [discoverStep, hd1, hd2, hd3]

/-- A line that is neither comment, function definition, nor parameter
    reference resets the pending comment buffer. -/
theorem discoverStep_reset (blank : String)
    (hb1 : pyStartsWith blank "#" = false)
    (hb2 : containsStr blank "function" = false)
    (hb3 : paramSearch blank = none) :
    ∀ st : DiscoverState, discoverStep st blank =
      some { st with comment := "" } := by
  intro st
  simp [discoverStep, hb1, hb2, hb3]

/-- Claim C8 is false as stated: a function-definition line does not reset
    the pending comment buffer, so the documentation of a function preceded
    immediately by one comment line can include comment lines from before an
    earlier function definition — `g` is immediately preceded only by the
    comment line `# b`, yet its registered documentation also carries ` a`. -/
theorem c8_comment_inheritance_counterexample :
    shell_discover ["# a\n", "function f() \x7b\n", "# b\n", "function g() \x7b\n"] =
      some { names :=
               [("f", { name := "f", comment := " a\n", params := [] }),
                ("g", { name := "g", comment := " a\n b\n", params := [] })],
             comment := " a\n b\n", current := "g" } ∧
    (" a\n b\n" : String) ≠ " b\n" :=
  ⟨rfl, by decide⟩

/-- Claim C8 (amended): whenever the pending comment buffer is empty where
    the comment block starts (as at the start of the script or after any
    reset line; a function-definition line does not reset the buffer), a
    function definition immediately preceded by comment lines is registered
    with documentation exactly those comment lines with the leading sigil
    stripped, while an intervening non-comment, non-definition,
    non-parameter-reference line (such as a blank line) resets the buffer and
    the registered documentation is the empty string. -/
theorem c8_comment_attachment (cs : List String) (defLine blank t : String)
    (ts : List String) (st : DiscoverState)
    (hcs : ∀ c ∈ cs, pyStartsWith c "#" = true)
    (hd1 : pyStartsWith defLine "#" = false)
    (hd2 : containsStr defLine "function" = true)
    (hd3 : (pySplit defLine).drop 1 = t :: ts)
    (hb1 : pyStartsWith blank "#" = false)
    (hb2 : containsStr blank "function" = false)
    (hb3 : paramSearch blank = none)
    (hcom : st.comment = "") :
    ((cs ++ [defLine]).foldlM discoverStep st =
      some { names := dictInsert st.names (pyDropRight t 2)
               { name := pyDropRight t 2, comment := stripHash cs,
                 params := [] },
             comment := stripHash cs, current := pyDropRight t 2 } ∧
     lookupDict (dictInsert st.names (pyDropRight t 2)
         { name := pyDropRight t 2, comment := stripHash cs, params := [] })
       (pyDropRight t 2) =
       some { name := pyDropRight t 2, comment := stripHash cs,
              params := [] }) ∧
    ((cs ++ [blank, defLine]).foldlM discoverStep st =
      some { names := dictInsert st.names (pyDropRight t 2)
               { name := pyDropRight t 2, comment := "", params := [] },
             comment := "", current := pyDropRight t 2 } ∧
     lookupDict (dictInsert st.names (pyDropRight t 2)
         { name := pyDropRight t 2, comment := "", params := [] })
       (pyDropRight t 2) =
       some { name := pyDropRight t 2, comment := "", params := [] }) := by
  have hfold : cs.foldlM discoverStep st =
      some { st with comment := stripHash cs } := by
    rw [foldlM_comment_lines cs st hcs, hcom, String.empty_append]
  refine ⟨⟨?_, lookupDict_dictInsert _ _ _⟩, ⟨?_, lookupDict_dictInsert _ _ _⟩⟩
  · rw [List.foldlM_append, hfold]
    show [defLine].foldlM discoverStep _ = _
    rw [List.foldlM_cons, discoverStep_function defLine t ts hd1 hd2 hd3]
    rfl
  · rw [List.foldlM_append, hfold]
    show [blank, defLine].foldlM discoverStep _ = _
    rw [List.foldlM_cons, discoverStep_reset blank hb1 hb2 hb3]
    show [defLine].foldlM discoverStep _ = _
    rw [List.foldlM_cons, discoverStep_function defLine t ts hd1 hd2 hd3]
    rfl

/-- Two comment lines, a blank line, and a shell function definition for the
    C8 witness. -/
def c8Comments : List String := ["# one\n", "# two\n"]

def c8DefLine : String := "function doit() \x7b\n"

def c8Blank : String := "\n"

/-- Witness for C8 at a concrete two-line-commented `doit` script. -/
theorem c8_comment_attachment_witness :
    shell_discover (c8Comments ++ [c8DefLine]) =
      some { names := [("doit",
               { name := "doit", comment := " one\n two\n", params := [] })],
             comment := " one\n two\n", current := "doit" } ∧
    shell_discover (c8Comments ++ [c8Blank, c8DefLine]) =
      some { names := [("doit",
               { name := "doit", comment := "", params := [] })],
             comment := "", current := "doit" } := by
  have h := c8_comment_attachment c8Comments c8DefLine c8Blank "doit()" ["\x7b"]
    { names := [], comment := "", current := "" }
    (by decide) (by decide) (by decide) (by decide) (by decide) (by decide)
    (by decide) rfl
  exact ⟨(h.1.1).trans (by decide), (h.2.1).trans (by decide)⟩

/-! ### Claim C10: empty environment values are treated as absent -/

/-- Claim C10: a host-process environment variable set to the empty string is
    treated as absent — `getenv` falls through to the module environment,
    returning the module value whenever the name is one of its keys (even an
    empty value) and the default otherwise; substitution likewise skips both
    an empty host value and an empty module value, leaving the token
    unreplaced. -/
theorem c10_empty_env_treated_absent (host menv : List (String × String))
    (t : String) (dflt : Option String)
    (hhost : lookupDict host (pyDrop t 1) = some "") :
    (getenv host menv (pyDrop t 1) dflt =
      match lookupDict menv (pyDrop t 1) with
      | some v => some v
      | none => dflt) ∧
    (pyStartsWith t "$" = true → lookupDict menv (pyDrop t 1) = some "" →
      substToken host menv t = t) := by
  have htruthy : truthyGet host (pyDrop t 1) = none := by
    simp [truthyGet, hhost]
  constructor
  · simp [getenv, htruthy]
  · intro h1 h2
    simp [substToken, h1, truthyGet, hhost, h2]

/-! ### Claim C1: a failing operation aborts the pipeline -/

/-- The operation returned by `Module.run` keeps its command and arguments and
    carries Passed exactly when the dispatch succeeded, Error otherwise. -/
theorem module_run_fields (caps : String → Option Capability) (op : Operation) :
    (module_run caps op).1.state =
      (if (module_run caps op).2 then "Passed" else "Error") ∧
    (module_run caps op).1.command = op.command ∧
    (module_run caps op).1.args = op.args := by
  unfold module_run
  cases caps op.command with
  | none => simp
  | some cap =>
    by_cases hb : cap.behavior (bindArgs cap.params op.args).1
        (bindArgs cap.params op.args).2
    · simp [hb]
    · simp [hb]

/-- Claim C1: for a module whose declared operation list is `[A, B, C]`, whose
    setup succeeds, whose operation A dispatches successfully and whose
    operation B fails during dispatch (the command resolves to no capability
    or the capability raises), the runner executes A and sets its state to
    Passed, attempts B and sets its state to Error and the module's state to
    Error, never attempts C, does not invoke teardown, and propagates the
    failure to the caller. -/
theorem c1_failure_aborts_pipeline (caps : String → Option Capability)
    (host menv : List (String × String)) (tOk : Bool) (ms : String)
    (A B C : Operation)
    (hA : reservedNames.contains A.command = false)
    (hB : reservedNames.contains B.command = false)
    (hAok : (module_run caps (process_environment host menv A)).2 = true)
    (hBfail : (module_run caps (process_environment host menv B)).2 = false) :
    runner_run caps host menv true tOk ms [A, B, C] =
      { ops := [(module_run caps (process_environment host menv A)).1,
                (module_run caps (process_environment host menv B)).1, C],
        runnerState := "Error", moduleState := "Error",
        attempted := [(process_environment host menv A).command,
                      (process_environment host menv B).command],
        teardown := false, raised := true } ∧
    (module_run caps (process_environment host menv A)).1.state = "Passed" ∧
    (module_run caps (process_environment host menv B)).1.state = "Error" := by
  refine ⟨?_, ?_, ?_⟩
  · simp only [runner_run, if_true]
    simp only [runner_loop, hA, hB, hAok, hBfail]
    simp
  · rw [(module_run_fields caps (process_environment host menv A)).1, hAok]
    simp
  · rw [(module_run_fields caps (process_environment host menv B)).1, hBfail]
    simp

/-- Concrete capability table for the C1 witness: `good` succeeds, `bad`
    raises, anything else is unknown. -/
def c1Caps : String → Option Capability := fun c =>
  if c = "good" then some { params := [], behavior := fun _ _ => true }
  else if c = "bad" then some { params := [], behavior := fun _ _ => false }
  else none

/-- Concrete operations for the C1 witness. -/
def c1A : Operation := { command := "good", args := [], state := "NotRun" }

def c1B : Operation := { command := "bad", args := [], state := "NotRun" }

def c1C : Operation := { command := "later", args := [], state := "NotRun" }

/-- Witness for C1 at a concrete module. -/
theorem c1_failure_aborts_pipeline_witness :
    runner_run c1Caps [] [] true true "NotRun" [c1A, c1B, c1C] =
      { ops := [{ command := "good", args := [], state := "Passed" },
                { command := "bad", args := [], state := "Error" },
                { command := "later", args := [], state := "NotRun" }],
        runnerState := "Error", moduleState := "Error",
        attempted := ["good", "bad"], teardown := false, raised := true } := by
  have h := c1_failure_aborts_pipeline c1Caps [] [] true "NotRun" c1A c1B c1C
    (by decide) (by decide) (by decide) (by decide)
  exact h.1.trans (by decide)

/-! ### Claim C3: the all-success path -/

/-- When every non-reserved operation dispatches successfully, the loop
    reaches and invokes teardown, finishes without raising, sets the runner's
    state to Passed, and leaves the module state untouched. -/
theorem runner_loop_all_pass (caps : String → Option Capability)
    (host menv : List (String × String)) :
    ∀ (ops : List Operation) (rs ms : String),
      (∀ op ∈ ops, reservedNames.contains op.command = false →
        (module_run caps (process_environment host menv op)).2 = true) →
      (runner_loop caps host menv true rs ms ops).teardown = true ∧
      (runner_loop caps host menv true rs ms ops).raised = false ∧
      (runner_loop caps host menv true rs ms ops).runnerState = "Passed" ∧
      (runner_loop caps host menv true rs ms ops).moduleState = ms := by
  intro ops
  induction ops with
  | nil => intro rs ms _; simp [runner_loop]
  | cons op rest ih =>
    intro rs ms h
    cases hres : reservedNames.contains op.command with
    | true =>
      have := ih rs ms (fun q hq => h q (List.mem_cons_of_mem _ hq))
      simp only [runner_loop, hres, if_true]
      exact this
    | false =>
      have hok := h op (List.mem_cons_self _ _) hres
      have := ih "Passed" ms (fun q hq => h q (List.mem_cons_of_mem _ hq))
      simp only [runner_loop, hres, hok, if_true, Bool.false_eq_true, if_false]
      exact this

/-- Claim C3 is false as stated: a run in which setup and the single declared
    operation complete without failure does invoke teardown and raise nothing,
    but the Module's state afterwards is still NotRun, not Passed (only the
    runner object's own state becomes Passed). -/
theorem c3_module_state_counterexample :
    (runner_run (fun c => if c = "doit"
        then some { params := [], behavior := fun _ _ => true } else none)
      [] [] true true "NotRun"
      [{ command := "doit", args := [], state := "NotRun" }]).teardown = true ∧
    (runner_run (fun c => if c = "doit"
        then some { params := [], behavior := fun _ _ => true } else none)
      [] [] true true "NotRun"
      [{ command := "doit", args := [], state := "NotRun" }]).raised = false ∧
    (runner_run (fun c => if c = "doit"
        then some { params := [], behavior := fun _ _ => true } else none)
      [] [] true true "NotRun"
      [{ command := "doit", args := [], state := "NotRun" }]).moduleState
      ≠ "Passed" := by
  refine ⟨by decide, by decide, by decide⟩

/-- Claim C3 (amended): for every module run in which setup, every declared
    operation and teardown complete without failure, the runner invokes
    teardown() after the last operation and then the runner's own state is
    Passed; the Module instance's state is left unchanged (it is never set to
    Passed). -/
theorem c3_success_invokes_teardown (caps : String → Option Capability)
    (host menv : List (String × String)) (ms : String) (ops : List Operation)
    (h : ∀ op ∈ ops, reservedNames.contains op.command = false →
      (module_run caps (process_environment host menv op)).2 = true) :
    (runner_run caps host menv true true ms ops).teardown = true ∧
    (runner_run caps host menv true true ms ops).raised = false ∧
    (runner_run caps host menv true true ms ops).runnerState = "Passed" ∧
    (runner_run caps host menv true true ms ops).moduleState = ms := by
  simp only [runner_run, if_true]
  exact runner_loop_all_pass caps host menv ops "Processing" ms h

/-- Concrete capability table and operation for the C3 witness. -/
def c3Caps : String → Option Capability := fun c =>
  if c = "configure" then some { params := [], behavior := fun _ _ => true }
  else none

def c3Op : Operation := { command := "configure", args := [], state := "NotRun" }

/-- Witness for C3 (amended) at a concrete module. -/
theorem c3_success_invokes_teardown_witness :
    (runner_run c3Caps [] [] true true "NotRun" [c3Op]).teardown = true ∧
    (runner_run c3Caps [] [] true true "NotRun" [c3Op]).raised = false ∧
    (runner_run c3Caps [] [] true true "NotRun" [c3Op]).runnerState = "Passed" ∧
    (runner_run c3Caps [] [] true true "NotRun" [c3Op]).moduleState = "NotRun" :=
  c3_success_invokes_teardown c3Caps [] [] "NotRun" [c3Op] (by decide)

/-! ### Claim C9: reserved operation names are never dispatched -/

/-- Every command the loop ever dispatches comes from a declared operation
    whose command is not reserved. -/
theorem runner_loop_attempted_sources (caps : String → Option Capability)
    (host menv : List (String × String)) (tOk : Bool) :
    ∀ (ops : List Operation) (rs ms : String),
      ∀ c ∈ (runner_loop caps host menv tOk rs ms ops).attempted,
        ∃ q ∈ ops, reservedNames.contains q.command = false ∧
          c = (process_environment host menv q).command := by
  intro ops
  induction ops with
  | nil =>
    intro rs ms c hc
    cases tOk <;> simp [runner_loop] at hc
  | cons op rest ih =>
    intro rs ms c hc
    by_cases hres : reservedNames.contains op.command
    · simp only [runner_loop, hres, if_true] at hc
      obtain ⟨q, hq, hq2⟩ := ih rs ms c hc
      exact ⟨q, List.mem_cons_of_mem _ hq, hq2⟩
    · simp only [runner_loop, hres, if_false, Bool.false_eq_true] at hc
      by_cases hr : (module_run caps (process_environment host menv op)).2
      · rw [if_pos hr] at hc
        simp only [List.mem_cons] at hc
        rcases hc with hc | hc
        · exact ⟨op, List.mem_cons_self _ _, by simpa using hres, hc⟩
        · obtain ⟨q, hq, hq2⟩ := ih "Passed" ms c hc
          exact ⟨q, List.mem_cons_of_mem _ hq, hq2⟩
      · rw [if_neg hr] at hc
        simp only [List.mem_singleton] at hc
        exact ⟨op, List.mem_cons_self _ _, by simpa using hres, hc⟩

/-- Claim C9: an operation whose declared command is one of the reserved
    names setup, run, url, version, teardown is skipped by the runner —
    processing a list headed by it is processing the tail with the operation
    left untouched — and, in general, every dispatched command originates
    from a declared operation whose command is not reserved, whatever
    capabilities (including same-named script functions) the module defines. -/
theorem c9_reserved_skipped (caps : String → Option Capability)
    (host menv : List (String × String)) (sOk tOk : Bool)
    (rs ms : String) (op : Operation) (rest ops : List Operation)
    (hres : reservedNames.contains op.command = true) :
    (runner_loop caps host menv tOk rs ms (op :: rest) =
      { runner_loop caps host menv tOk rs ms rest with
        ops := op :: (runner_loop caps host menv tOk rs ms rest).ops }) ∧
    (∀ c ∈ (runner_run caps host menv sOk tOk ms ops).attempted,
      ∃ q ∈ ops, reservedNames.contains q.command = false ∧
        c = (process_environment host menv q).command) := by
  constructor
  · simp only [runner_loop, hres, if_true]
  · cases sOk with
    | false => simp [runner_run]
    | true =>
      simp only [runner_run, if_true]
      exact runner_loop_attempted_sources caps host menv tOk ops "Processing" ms

/-- Concrete module for the C9 witness: the script defines functions named
    `run` and `teardown`, yet declared operations under those names are
    skipped and only `doit` is dispatched. -/
def c9Caps : String → Option Capability := fun _ =>
  some { params := [], behavior := fun _ _ => true }

def c9Run : Operation := { command := "run", args := [], state := "NotRun" }

def c9Teardown : Operation :=
  { command := "teardown", args := [], state := "NotRun" }

def c9Doit : Operation := { command := "doit", args := [], state := "NotRun" }

/-- Witness for C9 at a concrete module whose capabilities answer every name. -/
theorem c9_reserved_skipped_witness :
    runner_loop c9Caps [] [] true "Processing" "NotRun" [c9Run, c9Doit] =
      { runner_loop c9Caps [] [] true "Processing" "NotRun" [c9Doit] with
        ops := c9Run ::
          (runner_loop c9Caps [] [] true "Processing" "NotRun" [c9Doit]).ops } ∧
    (∃ q ∈ [c9Run, c9Doit, c9Teardown],
      reservedNames.contains q.command = false ∧
      "doit" = (process_environment [] [] q).command) := by
  have h := c9_reserved_skipped c9Caps [] [] true true "Processing" "NotRun"
    c9Run [c9Doit] [c9Run, c9Doit, c9Teardown] (by decide)
  refine ⟨h.1, h.2 "doit" ?_⟩
  decide

/-- Witness for C10 at concrete environments. -/
theorem c10_empty_env_treated_absent_witness :
    getenv [("X", "")] [("X", "")] "X" (some "dflt") = some "" ∧
    getenv [("X", "")] [] "X" (some "dflt") = some "dflt" ∧
    substToken [("X", "")] [("X", "")] "$X" = "$X" :=
  ⟨(c10_empty_env_treated_absent [("X", "")] [("X", "")] "$X" (some "dflt")
      (by decide)).1,
   (c10_empty_env_treated_absent [("X", "")] [] "$X" (some "dflt")
      (by decide)).1,
   (c10_empty_env_treated_absent [("X", "")] [("X", "")] "$X" (some "dflt")
      (by decide)).2 (by decide) (by decide)⟩
